import Mathlib

/-!
Shallow embedding of `lib/vfscore/automount.c` (Unikraft VFS automatic
mounts), in the configuration with `CONFIG_LIBVFSCORE_AUTOMOUNT_ROOTFS`,
`CONFIG_LIBVFSCORE_FSTAB`, `CONFIG_LIBUKCPIO` and `CONFIG_LIBRAMFS` enabled
and `CONFIG_LIBVFSCORE_ROOTFS_EINITRD` disabled.

C strings are modelled as `List Char` holding the characters strictly before
the terminating NUL byte (so input lists contain no NUL).  The tokenizer
`vfscore_fstab_next_volume_arg` mutates the fstab entry buffer in place,
overwriting each consumed separator with NUL; this is modelled by returning
the final buffer contents alongside the parsed fields.  A `UK_ASSERT`
failure is modelled as `none` / `assertTrip` (the process terminates).
External collaborators (the `mount` primitive, `ukcpio_extract`,
`ukplat_memregion_find_initrd0`) are oracles bundled in `AutomountEnv`, and
every call into the first two is recorded as an event so that call counts
and call order are part of the model.
-/

/-- The NUL byte that the tokenizer writes over a consumed separator. -/
def NUL : Char := Char.ofNat 0

/-- LIBVFSCORE_FSTAB_VOLUME_ARGS_SEP from automount.c. -/
def fstabSep : Char := ':'

/-- Splitting a buffer at the first separator, as `strchr` plus the
in-place cut does: the first component is the token before the first
separator, the second is `some` of the remainder after that separator,
or `none` when the buffer holds no separator. -/
def splitAtSep : List Char → List Char × Option (List Char)
  | [] => ([], none)
  | c :: cs =>
    if c = fstabSep then ([], some cs)
    else
      let p := splitAtSep cs
      (c :: p.1, p.2)

/-- Embedding of `vfscore_fstab_next_volume_arg`: `pos` is the current
parse position (a NULL pointer is `none`).  Returns the token (NULL when
the position was NULL) and the updated position. -/
def vfscore_fstab_next_volume_arg (pos : Option (List Char)) :
    Option (List Char) × Option (List Char) :=
  match pos with
  | none => (none, none)
  | some cs =>
    let p := splitAtSep cs
    (some p.1, p.2)

/-- Embedding of `struct vfscore_volume`. -/
structure vfscore_volume where
  sdev : List Char
  path : List Char
  drv : List Char
  flags : Nat
  opts : Option (List Char)
deriving DecidableEq

/-- Hexadecimal digit value of a character, as `strtol` classifies
digits. -/
def hexVal (c : Char) : Option Nat :=
  if '0' ≤ c ∧ c ≤ '9' then some (c.toNat - '0'.toNat)
  else if 'a' ≤ c ∧ c ≤ 'f' then some (c.toNat - 'a'.toNat + 10)
  else if 'A' ≤ c ∧ c ≤ 'F' then some (c.toNat - 'A'.toNat + 10)
  else none

/-- Accumulate the maximal prefix of digits valid in `base`, as the
conversion loop of `strtol` does. -/
def strtolAcc (base : Nat) : List Char → Nat → Nat
  | [], acc => acc
  | c :: cs, acc =>
    match hexVal c with
    | some d => if d < base then strtolAcc base cs (acc * base + d) else acc
    | none => acc

/-- Characters skipped by the initial whitespace scan of `strtol`. -/
def isSpaceChar (c : Char) : Bool :=
  c = ' ' || c = '\t' || c = '\n' || c = '\x0b' || c = '\x0c' || c = '\r'

def LONG_MAX : Int := 2 ^ 63 - 1

def LONG_MIN : Int := -(2 ^ 63)

/-- Out-of-range results of `strtol` are clamped to LONG_MIN/LONG_MAX. -/
def clampLong (i : Int) : Int :=
  if i < LONG_MIN then LONG_MIN else if LONG_MAX < i then LONG_MAX else i

/-- Embedding of `strtol(s, NULL, 0)`: optional whitespace and sign, then
auto base detection (`0x`/`0X` followed by a hex digit means base 16, a
leading `0` otherwise means base 8, anything else base 10), then the
maximal valid digit prefix; no digits at all yields 0. -/
def strtol (s : List Char) : Int :=
  let s1 := s.dropWhile isSpaceChar
  let signAndRest : Bool × List Char :=
    match s1 with
    | '-' :: t => (true, t)
    | '+' :: t => (false, t)
    | t => (false, t)
  let baseAndDigits : Nat × List Char :=
    match signAndRest.2 with
    | '0' :: x :: t =>
      if (x = 'x' || x = 'X') &&
         (match t with | c :: _ => (hexVal c).isSome | [] => false)
      then (16, t)
      else (8, '0' :: x :: t)
    | t => (10, t)
  let n : Nat := strtolAcc baseAndDigits.1 baseAndDigits.2 0
  clampLong (if signAndRest.1 then -(n : Int) else (n : Int))

/-- Conversion of the (long) result of `strtol` to the `unsigned long`
field `vv->flags`. -/
def ulongOfInt (i : Int) : Nat := (i % (2 ^ 64 : Int)).toNat

/-- Reassembly of a piece of the entry buffer after one tokenizer call:
when the call consumed a separator (`pos` is `some`), that byte is now
NUL and the rest of the buffer follows; otherwise the token is the last
piece. -/
def glue (t : List Char) (pos : Option (List Char)) (tail : List Char) :
    List Char :=
  match pos with
  | some _ => t ++ NUL :: tail
  | none => t ++ tail

/-- Embedding of `vfscore_fstab_fetch_volume_args`.  `vv` is the prior
contents of the caller's `struct vfscore_volume` (the C function mutates
it field by field and returns early after `drv` when no separator
remains, leaving `flags` and `opts` untouched).  The result is `none`
when a `UK_ASSERT` on a missing mandatory field trips, otherwise the
updated volume together with the final contents of the entry buffer
(the tokenizer overwrote each consumed separator with NUL). -/
def vfscore_fstab_fetch_volume_args (v : List Char) (vv : vfscore_volume) :
    Option (vfscore_volume × List Char) :=
  match vfscore_fstab_next_volume_arg (some v) with
  | (none, _) => none
  | (some sdev, pos1) =>
    match vfscore_fstab_next_volume_arg pos1 with
    | (none, _) => none
    | (some path, pos2) =>
      match vfscore_fstab_next_volume_arg pos2 with
      | (none, _) => none
      | (some drv, pos3) =>
        match pos3 with
        | none =>
          some ({ vv with sdev := sdev, path := path, drv := drv },
                glue sdev pos1 (glue path pos2 drv))
        | some rest3 =>
          match vfscore_fstab_next_volume_arg (some rest3) with
          | (none, _) => none
          | (some ftok, pos4) =>
            let flagsV : Nat :=
              if ftok ≠ [] then ulongOfInt (strtol ftok) else 0
            match vfscore_fstab_next_volume_arg pos4 with
            | (otok, pos5) =>
              let optsV : Option (List Char) :=
                match otok with
                | none => none
                | some o => if o = [] then none else some o
              let tail5 : List Char :=
                match otok, pos5 with
                | none, _ => []
                | some o, none => o
                | some o, some r5 => o ++ NUL :: r5
              some ({ sdev := sdev, path := path, drv := drv,
                      flags := flagsV, opts := optsV },
                    glue sdev pos1 (glue path pos2 (glue drv pos3
                      (glue ftok pos4 tail5))))

/-- Observable calls into the external collaborators. -/
inductive AutomountEv where
  | parseEntry (raw : List Char)
  | mountCall (sdev path drv : List Char) (flags : Nat)
      (opts : Option (List Char)) (ret : Int)
  | extractCall (path : List Char) (base len : Nat) (ret : Int)
deriving DecidableEq

/-- Oracles for the external collaborators: the return value of the
`mount` primitive per request, the return value of `ukcpio_extract`,
and the initrd memory region reported by
`ukplat_memregion_find_initrd0` (`none` when no region exists). -/
structure AutomountEnv where
  mountRet : List Char → List Char → List Char → Nat →
      Option (List Char) → Int
  extractRet : List Char → Nat → Nat → Int
  initrd0 : Option (Nat × Nat)

/-- Embedding of `vfscore_mount_volume`: call-through to the mount
primitive with the five descriptor fields. -/
def vfscore_mount_volume (env : AutomountEnv) (vv : vfscore_volume) :
    Int × List AutomountEv :=
  let rc := env.mountRet vv.sdev vv.path vv.drv vv.flags vv.opts
  (rc, [.mountCall vv.sdev vv.path vv.drv vv.flags vv.opts rc])

/-- Embedding of `do_mount_initrd`: mount a ramfs at `path` with empty
source and no options, then extract the cpio archive at (`base`,`len`)
into it; each failure maps to -1. -/
def do_mount_initrd (env : AutomountEnv) (base len : Nat)
    (path : List Char) : Int × List AutomountEv :=
  let rc := env.mountRet [] path ("ramfs".toList) 0 none
  let e1 : AutomountEv := .mountCall [] path ("ramfs".toList) 0 none rc
  if rc ≠ 0 then (-1, [e1])
  else
    let rc2 := env.extractRet path base len
    let e2 : AutomountEv := .extractCall path base len rc2
    if rc2 ≠ 0 then (-1, [e1, e2]) else (0, [e1, e2])

/-- Embedding of `vfscore_mount_initrd_volume`: locate the first initrd
memory region; when none is reported fail with -1 (and no call to the
mount primitive), otherwise hand the region to `do_mount_initrd`. -/
def vfscore_mount_initrd_volume (env : AutomountEnv)
    (vv : vfscore_volume) : Int × List AutomountEv :=
  match env.initrd0 with
  | none => (-1, [])
  | some r => do_mount_initrd env r.1 r.2 vv.path

/-- Literal drv comparison `strncmp(drv, "initrd", sizeof("initrd") - 1)`:
for NUL-free strings this is exactly the list starting-with test. -/
def listStartsWith : List Char → List Char → Bool
  | [], _ => true
  | _ :: _, [] => false
  | p :: ps, c :: cs => p = c && listStartsWith ps cs

def initrdName : List Char := "initrd".toList

/-- Compile-time root configuration: the values the initializer of `vv`
in `vfscore_automount_rootfs` receives.  The defaults mirror the
`#else` branches for an undefined CONFIG option. -/
structure RootfsConfig where
  sdev : List Char := []
  drv : List Char := []
  flags : Nat := 0
  opts : Option (List Char) := some []

/-- Embedding of `vfscore_automount_rootfs` (AUTOMOUNT_ROOTFS enabled,
EINITRD disabled): build the root volume from compile-time
configuration; empty driver succeeds immediately; an `initrd`-prefixed
driver routes to the initrd path; otherwise one generic mount. -/
def vfscore_automount_rootfs (env : AutomountEnv) (cfg : RootfsConfig) :
    Int × List AutomountEv :=
  let vv : vfscore_volume :=
    ⟨cfg.sdev, "/".toList, cfg.drv, cfg.flags, cfg.opts⟩
  if vv.drv = [] then (0, [])
  else if listStartsWith initrdName vv.drv then
    vfscore_mount_initrd_volume env vv
  else
    vfscore_mount_volume env vv

/-- Dispatch of one parsed fstab volume inside the Phase B loop:
`initrd`-prefixed drivers route to `vfscore_mount_initrd_volume`,
everything else to `vfscore_mount_volume`. -/
def fstabDispatchOne (env : AutomountEnv) (vv : vfscore_volume) :
    Int × List AutomountEv :=
  if listStartsWith initrdName vv.drv then
    vfscore_mount_initrd_volume env vv
  else
    vfscore_mount_volume env vv

/-- Outcome of a run: a returned status, or a tripped `UK_ASSERT`
(process termination). -/
inductive FstabOutcome where
  | ok (rc : Int)
  | assertTrip
deriving DecidableEq

/-- Embedding of `vfscore_automount_fstab_volumes`.  The mount table is
the fstab array: a list of slots, iteration stopping at the first
absent (NULL) slot or at the end (the capacity bound).  The single
`struct vfscore_volume vv` lives outside the loop and is threaded
through the iterations, exactly as in the C code.  Returns the outcome,
the event trace, and the table contents after the run (entry buffers
are mutated in place by the parser).  When a parse trips an assertion
the table is returned as-is: the process dies, the buffers are not
observable. -/
def vfscore_automount_fstab_volumes (env : AutomountEnv) :
    vfscore_volume → List (Option (List Char)) →
    FstabOutcome × List AutomountEv × List (Option (List Char))
  | _, [] => (.ok 0, [], [])
  | _, none :: rest => (.ok 0, [], none :: rest)
  | vv, some e :: rest =>
    match vfscore_fstab_fetch_volume_args e vv with
    | none => (.assertTrip, [.parseEntry e], some e :: rest)
    | some (vv2, buf) =>
      let d := fstabDispatchOne env vv2
      if d.1 ≠ 0 then (.ok d.1, .parseEntry e :: d.2, some buf :: rest)
      else
        let r := vfscore_automount_fstab_volumes env vv2 rest
        (r.1, .parseEntry e :: (d.2 ++ r.2.1), some buf :: r.2.2)

/-- Embedding of `vfscore_automount`: Phase A (rootfs), short-circuit
on a negative status, then Phase B (fstab volumes). -/
def vfscore_automount (env : AutomountEnv) (cfg : RootfsConfig)
    (vv0 : vfscore_volume) (tab : List (Option (List Char))) :
    FstabOutcome × List AutomountEv × List (Option (List Char)) :=
  let ra := vfscore_automount_rootfs env cfg
  if ra.1 < 0 then (.ok ra.1, ra.2, tab)
  else
    let rb := vfscore_automount_fstab_volumes env vv0 tab
    (rb.1, ra.2 ++ rb.2.1, rb.2.2)

/-- An arbitrary but fixed prior volume state, standing for the
uninitialized stack variable at its first use. -/
def vvInit : vfscore_volume := ⟨[], [], [], 0, none⟩

/-- An environment whose primitives all succeed and that reports no
initrd region. -/
def envZero : AutomountEnv :=
  ⟨fun _ _ _ _ _ => 0, fun _ _ _ => 0, none⟩

/-- Reformulation of `vfscore_fstab_fetch_volume_args` by direct case
analysis on the chained splits; proved equal to it below and used only
inside proofs. -/
def fetchVolumeArgsAlt (v : List Char) (vv : vfscore_volume) :
    Option (vfscore_volume × List Char) :=
  match splitAtSep v with
  | (_, none) => none
  | (t1, some r1) =>
    match splitAtSep r1 with
    | (_, none) => none
    | (t2, some r2) =>
      match splitAtSep r2 with
      | (t3, none) =>
        some ({ vv with sdev := t1, path := t2, drv := t3 },
              t1 ++ NUL :: (t2 ++ NUL :: t3))
      | (t3, some r3) =>
        match splitAtSep r3 with
        | (t4, none) =>
          some (⟨t1, t2, t3, if t4 ≠ [] then ulongOfInt (strtol t4) else 0,
                 none⟩,
                t1 ++ NUL :: (t2 ++ NUL :: (t3 ++ NUL :: t4)))
        | (t4, some r4) =>
          match splitAtSep r4 with
          | (t5, q5) =>
            some (⟨t1, t2, t3, if t4 ≠ [] then ulongOfInt (strtol t4) else 0,
                   if t5 = [] then none else some t5⟩,
                  t1 ++ NUL :: (t2 ++ NUL :: (t3 ++ NUL :: (t4 ++ NUL ::
                    (match q5 with
                     | none => t5
                     | some r5 => t5 ++ NUL :: r5)))))

/-- Pointwise relation: `b` is `a` with some separator bytes overwritten
by NUL and nothing else changed. -/
def onlySepToNul : List Char → List Char → Bool
  | [], [] => true
  | a :: as, b :: bs =>
    (a = b || (a = fstabSep && b = NUL)) && onlySepToNul as bs
  | _, _ => false

/-- The sequence of volumes produced by parsing `entries` while threading
the single loop-local `struct vfscore_volume` through the iterations;
`none` when some parse trips an assertion. -/
def fstabParseSeq : vfscore_volume → List (List Char) →
    Option (List vfscore_volume)
  | _, [] => some []
  | vv, e :: rest =>
    match vfscore_fstab_fetch_volume_args e vv with
    | none => none
    | some (vv2, _) =>
      match fstabParseSeq vv2 rest with
      | none => none
      | some vs => some (vv2 :: vs)

/-- Expected event trace of Phase B over the given entries and their
parsed volumes: each entry is parsed then dispatched exactly once, in
table order. -/
def fstabTrace (env : AutomountEnv) :
    List (List Char) → List vfscore_volume → List AutomountEv
  | [], _ => []
  | _ :: _, [] => []
  | e :: es, vv :: vs =>
    .parseEntry e :: ((fstabDispatchOne env vv).2 ++ fstabTrace env es vs)

def cfgEmpty : RootfsConfig := {}

def cfgExt4 : RootfsConfig := { drv := "ext4".toList }

def cfgInitrd : RootfsConfig := { drv := "initrd".toList }

/-- Environment whose mount primitive returns the positive status 5 for
the root mount and 0 for everything else. -/
def envPosRoot : AutomountEnv :=
  ⟨fun _ p _ _ _ => if p = "/".toList then 5 else 0, fun _ _ _ => 0, none⟩

def envNegRoot : AutomountEnv :=
  ⟨fun _ _ _ _ _ => -1, fun _ _ _ => 0, none⟩

def tabOne : List (Option (List Char)) := [some "a:/m:ext4".toList]

def fstabC2 : List (Option (List Char)) :=
  [some "sda0:/mnt:ext4:0x10:ro".toList, some "sdb0:/data:9pfs".toList]

/-- Environment whose mount primitive fails with -5 exactly for source
device "b". -/
def envC7 : AutomountEnv :=
  ⟨fun s _ _ _ _ => if s = "b".toList then -5 else 0, fun _ _ _ => 0, none⟩

def entriesC7 : List (List Char) :=
  ["a:/x:ext4".toList, "b:/y:ext4".toList, "c:/z:ext4".toList]

def volsC7 : List vfscore_volume :=
  [⟨"a".toList, "/x".toList, "ext4".toList, 0, none⟩,
   ⟨"b".toList, "/y".toList, "ext4".toList, 0, none⟩,
   ⟨"c".toList, "/z".toList, "ext4".toList, 0, none⟩]

theorem splitAtSep_eq_none (cs : List Char) (t : List Char)
    (h : splitAtSep cs = (t, none)) : cs = t ∧ fstabSep ∉ t := by
  induction cs generalizing t with
  | nil =>
    simp only [splitAtSep, Prod.mk.injEq] at h
    exact ⟨h.1.symm ▸ rfl, h.1 ▸ List.not_mem_nil _⟩
  | cons c cs ih =>
    simp only [splitAtSep] at h
    by_cases hc : c = fstabSep
    · rw [if_pos hc] at h
      simp at h
    · rw [if_neg hc] at h
      rcases hp : splitAtSep cs with ⟨t0, q0⟩
      rw [hp] at h
      simp only [Prod.mk.injEq] at h
      obtain ⟨rfl, hq⟩ := h
      obtain ⟨rfl, hmem⟩ := ih t0 (by rw [hp, hq])
      refine ⟨rfl, ?_⟩
      intro hm
      rcases List.mem_cons.mp hm with h' | h'
      · exact hc h'.symm
      · exact hmem h'

theorem splitAtSep_eq_some (cs : List Char) (t r : List Char)
    (h : splitAtSep cs = (t, some r)) :
    cs = t ++ fstabSep :: r ∧ fstabSep ∉ t := by
  induction cs generalizing t with
  | nil => simp [splitAtSep] at h
  | cons c cs ih =>
    simp only [splitAtSep] at h
    by_cases hc : c = fstabSep
    · rw [if_pos hc] at h
      simp only [Prod.mk.injEq, Option.some.injEq] at h
      obtain ⟨rfl, rfl⟩ := h
      exact ⟨by rw [hc]; rfl, List.not_mem_nil _⟩
    · rw [if_neg hc] at h
      rcases hp : splitAtSep cs with ⟨t0, q0⟩
      rw [hp] at h
      simp only [Prod.mk.injEq] at h
      obtain ⟨rfl, hq⟩ := h
      obtain ⟨rfl, hmem⟩ := ih t0 (by rw [hp, hq])
      refine ⟨rfl, ?_⟩
      intro hm
      rcases List.mem_cons.mp hm with h' | h'
      · exact hc h'.symm
      · exact hmem h'

theorem splitAtSep_no_sep (cs : List Char) (h : fstabSep ∉ cs) :
    splitAtSep cs = (cs, none) := by
  induction cs with
  | nil => rfl
  | cons c cs ih =>
    rw [List.mem_cons, not_or] at h
    have hc : ¬ (c = fstabSep) := fun hh => h.1 hh.symm
    simp only [splitAtSep, if_neg hc, ih h.2]

theorem splitAtSep_append (a r : List Char) (h : fstabSep ∉ a) :
    splitAtSep (a ++ fstabSep :: r) = (a, some r) := by
  induction a with
  | nil => simp [splitAtSep]
  | cons c a ih =>
    rw [List.mem_cons, not_or] at h
    have hc : ¬ (c = fstabSep) := fun hh => h.1 hh.symm
    simp only [List.cons_append, splitAtSep, if_neg hc, List.append_eq, ih h.2]

theorem fetch_eq_alt (v : List Char) (vv : vfscore_volume) :
    vfscore_fstab_fetch_volume_args v vv = fetchVolumeArgsAlt v vv := by
  unfold vfscore_fstab_fetch_volume_args fetchVolumeArgsAlt
      vfscore_fstab_next_volume_arg
  dsimp only
  rcases splitAtSep v with ⟨t1, q1⟩
  cases q1 with
  | none => rfl
  | some r1 =>
    dsimp only
    rcases splitAtSep r1 with ⟨t2, q2⟩
    cases q2 with
    | none => rfl
    | some r2 =>
      dsimp only
      rcases splitAtSep r2 with ⟨t3, q3⟩
      cases q3 with
      | none => simp [glue]
      | some r3 =>
        dsimp only
        rcases splitAtSep r3 with ⟨t4, q4⟩
        cases q4 with
        | none => simp [glue]
        | some r4 =>
          dsimp only
          rcases splitAtSep r4 with ⟨t5, q5⟩
          cases q5 <;> simp [glue]

theorem onlySepToNul_refl : ∀ cs : List Char, onlySepToNul cs cs = true
  | [] => rfl
  | c :: cs => by simp [onlySepToNul, onlySepToNul_refl cs]

theorem onlySepToNul_append {a b c d : List Char}
    (h1 : onlySepToNul a b = true) (h2 : onlySepToNul c d = true) :
    onlySepToNul (a ++ c) (b ++ d) = true := by
  induction a generalizing b with
  | nil =>
    cases b with
    | nil => simpa using h2
    | cons y ys => simp [onlySepToNul] at h1
  | cons x xs ih =>
    cases b with
    | nil => simp [onlySepToNul] at h1
    | cons y ys =>
      simp only [onlySepToNul, Bool.and_eq_true] at h1
      simp only [List.cons_append, onlySepToNul, Bool.and_eq_true]
      exact ⟨h1.1, ih h1.2⟩

theorem onlySepToNul_glue (t : List Char) {r tail : List Char}
    (h : onlySepToNul r tail = true) :
    onlySepToNul (t ++ fstabSep :: r) (t ++ NUL :: tail) = true := by
  refine onlySepToNul_append (onlySepToNul_refl t) ?_
  have hstep : onlySepToNul (fstabSep :: r) (NUL :: tail) =
      ((fstabSep = NUL || (fstabSep = fstabSep && NUL = NUL)) &&
        onlySepToNul r tail) := rfl
  rw [hstep, h]
  decide

/-- Claim C10 (general part): two separators are enough for the parse to
succeed, whatever the flags token contains. -/
theorem fetch_two_seps_isSome (v : List Char) (vv : vfscore_volume)
    (h : 2 ≤ v.count fstabSep) :
    (vfscore_fstab_fetch_volume_args v vv).isSome = true := by
  rw [fetch_eq_alt]
  unfold fetchVolumeArgsAlt
  rcases h1 : splitAtSep v with ⟨t1, q1⟩
  cases q1 with
  | none =>
    obtain ⟨hv, hm⟩ := splitAtSep_eq_none v t1 h1
    subst hv
    rw [List.count_eq_zero.mpr hm] at h
    exact absurd h (by omega)
  | some r1 =>
    obtain ⟨hv, hm1⟩ := splitAtSep_eq_some v t1 r1 h1
    subst hv
    rw [List.count_append, List.count_cons_self,
        List.count_eq_zero.mpr hm1] at h
    dsimp only
    rcases h2 : splitAtSep r1 with ⟨t2, q2⟩
    cases q2 with
    | none =>
      obtain ⟨hr1, hm2⟩ := splitAtSep_eq_none r1 t2 h2
      rw [hr1, List.count_eq_zero.mpr hm2] at h
      exact absurd h (by omega)
    | some r2 =>
      dsimp only
      rcases h3 : splitAtSep r2 with ⟨t3, q3⟩
      cases q3 with
      | none => rfl
      | some r3 =>
        dsimp only
        rcases h4 : splitAtSep r3 with ⟨t4, q4⟩
        cases q4 with
        | none => rfl
        | some r4 =>
          dsimp only
          rcases h5 : splitAtSep r4 with ⟨t5, q5⟩
          rfl

/-- Claim C1 (counterexample): when the mount primitive hands the Rootfs
Resolver the positive status 5, the resolver returns 5 (nonzero), yet
the orchestrator does not return 5 and Phase B runs (an fstab entry is
parsed). -/
theorem automount_positive_rootfs_not_short_circuit :
    (vfscore_automount_rootfs envPosRoot cfgExt4).1 = 5 ∧
    (vfscore_automount envPosRoot cfgExt4 vvInit tabOne).1 = .ok 0 ∧
    AutomountEv.parseEntry "a:/m:ext4".toList ∈
      (vfscore_automount envPosRoot cfgExt4 vvInit tabOne).2.1 := by
  decide

/-- Claim C1 (amended): a negative Rootfs Resolver status is returned
unchanged by the orchestrator and Phase B never runs: the event trace is
exactly Phase A's and the table is untouched. -/
theorem automount_neg_rootfs_short_circuits (env : AutomountEnv)
    (cfg : RootfsConfig) (vv0 : vfscore_volume)
    (tab : List (Option (List Char)))
    (h : (vfscore_automount_rootfs env cfg).1 < 0) :
    vfscore_automount env cfg vv0 tab =
      (.ok (vfscore_automount_rootfs env cfg).1,
       (vfscore_automount_rootfs env cfg).2, tab) := by
  unfold vfscore_automount
  dsimp only
  rw [if_pos h]

theorem automount_neg_rootfs_short_circuits_w :
    vfscore_automount envNegRoot cfgExt4 vvInit tabOne =
      (.ok (vfscore_automount_rootfs envNegRoot cfgExt4).1,
       (vfscore_automount_rootfs envNegRoot cfgExt4).2, tabOne) :=
  automount_neg_rootfs_short_circuits envNegRoot cfgExt4 vvInit tabOne
    (by decide)

/-- Claim C2 (code bug): in a run over a table whose second entry
"sdb0:/data:9pfs" has exactly three fields, the second dispatch carries
flags 0x10 and options "ro" left over from the first entry, not flags 0
and absent options. -/
theorem fstab_three_field_entry_inherits_stale_fields :
    (vfscore_automount_fstab_volumes envZero vvInit fstabC2).2.1 =
      [.parseEntry "sda0:/mnt:ext4:0x10:ro".toList,
       .mountCall "sda0".toList "/mnt".toList "ext4".toList 0x10
         (some "ro".toList) 0,
       .parseEntry "sdb0:/data:9pfs".toList,
       .mountCall "sdb0".toList "/data".toList "9pfs".toList 0x10
         (some "ro".toList) 0] := by
  decide

/-- Claim C3 (counterexample): one orchestrator run mutates the stored
entry string in place, so the table is not byte-for-byte identical
afterwards. -/
theorem automount_mutates_table :
    (vfscore_automount envZero cfgEmpty vvInit tabOne).2.2 ≠ tabOne := by
  decide

/-- Claim C3 (amended): the parser mutates the entry buffer in place, but
the only change is that consumed separator bytes become NUL. -/
theorem fetch_mutation_only_sep_to_nul (v : List Char)
    (vv vv2 : vfscore_volume) (buf : List Char)
    (h : vfscore_fstab_fetch_volume_args v vv = some (vv2, buf)) :
    onlySepToNul v buf = true := by
  rw [fetch_eq_alt] at h
  unfold fetchVolumeArgsAlt at h
  rcases h1 : splitAtSep v with ⟨t1, q1⟩
  rw [h1] at h
  cases q1 with
  | none => simp at h
  | some r1 =>
    obtain ⟨hv, -⟩ := splitAtSep_eq_some v t1 r1 h1
    dsimp only at h
    rcases h2 : splitAtSep r1 with ⟨t2, q2⟩
    rw [h2] at h
    cases q2 with
    | none => simp at h
    | some r2 =>
      obtain ⟨hr1, -⟩ := splitAtSep_eq_some r1 t2 r2 h2
      dsimp only at h
      rcases h3 : splitAtSep r2 with ⟨t3, q3⟩
      rw [h3] at h
      cases q3 with
      | none =>
        obtain ⟨hr2, -⟩ := splitAtSep_eq_none r2 t3 h3
        simp only [Option.some.injEq, Prod.mk.injEq] at h
        obtain ⟨-, hbuf⟩ := h
        subst hbuf
        rw [hv, hr1, hr2]
        exact onlySepToNul_glue t1 (onlySepToNul_glue t2 (onlySepToNul_refl t3))
      | some r3 =>
        obtain ⟨hr2, -⟩ := splitAtSep_eq_some r2 t3 r3 h3
        dsimp only at h
        rcases h4 : splitAtSep r3 with ⟨t4, q4⟩
        rw [h4] at h
        cases q4 with
        | none =>
          obtain ⟨hr3, -⟩ := splitAtSep_eq_none r3 t4 h4
          simp only [Option.some.injEq, Prod.mk.injEq] at h
          obtain ⟨-, hbuf⟩ := h
          subst hbuf
          rw [hv, hr1, hr2, hr3]
          exact onlySepToNul_glue t1 (onlySepToNul_glue t2
            (onlySepToNul_glue t3 (onlySepToNul_refl t4)))
        | some r4 =>
          obtain ⟨hr3, -⟩ := splitAtSep_eq_some r3 t4 r4 h4
          dsimp only at h
          rcases h5 : splitAtSep r4 with ⟨t5, q5⟩
          rw [h5] at h
          cases q5 with
          | none =>
            obtain ⟨hr4, -⟩ := splitAtSep_eq_none r4 t5 h5
            dsimp only at h
            simp only [Option.some.injEq, Prod.mk.injEq] at h
            obtain ⟨-, hbuf⟩ := h
            subst hbuf
            rw [hv, hr1, hr2, hr3, hr4]
            exact onlySepToNul_glue t1 (onlySepToNul_glue t2
              (onlySepToNul_glue t3 (onlySepToNul_glue t4
                (onlySepToNul_refl t5))))
          | some r5 =>
            obtain ⟨hr4, -⟩ := splitAtSep_eq_some r4 t5 r5 h5
            dsimp only at h
            simp only [Option.some.injEq, Prod.mk.injEq] at h
            obtain ⟨-, hbuf⟩ := h
            subst hbuf
            rw [hv, hr1, hr2, hr3, hr4]
            exact onlySepToNul_glue t1 (onlySepToNul_glue t2
              (onlySepToNul_glue t3 (onlySepToNul_glue t4
                (onlySepToNul_glue t5 (onlySepToNul_refl r5)))))

theorem fetch_mutation_only_sep_to_nul_w :
    vfscore_fstab_fetch_volume_args ("a:/m:ext4".toList) vvInit =
      some (⟨"a".toList, "/m".toList, "ext4".toList, 0, none⟩,
            "a\x00/m\x00ext4".toList) ∧
    onlySepToNul ("a:/m:ext4".toList) ("a\x00/m\x00ext4".toList) = true :=
  ⟨by decide,
   fetch_mutation_only_sep_to_nul ("a:/m:ext4".toList) vvInit
     ⟨"a".toList, "/m".toList, "ext4".toList, 0, none⟩
     ("a\x00/m\x00ext4".toList) (by decide)⟩

/-- Claim C4: parsing "sda0:/mnt:ext4:0x10:ro" yields source "sda0",
path "/mnt", driver "ext4", flags 0x10 (hexadecimal auto-detected from
the 0x prefix) and options "ro", whatever the prior descriptor state. -/
theorem fetch_five_field_entry (vv : vfscore_volume) :
    vfscore_fstab_fetch_volume_args ("sda0:/mnt:ext4:0x10:ro".toList) vv =
      some (⟨"sda0".toList, "/mnt".toList, "ext4".toList, 0x10,
             some "ro".toList⟩,
            "sda0\x00/mnt\x00ext4\x000x10\x00ro".toList) := rfl

/-- Claim C5: a present-but-empty fourth token parses as flags 0, a
present-but-empty fifth token parses as absent options, and the
concrete entry with an empty flags field parses as flags 0 and options
"ro". -/
theorem fetch_empty_flags_empty_opts :
    (∀ (a b c rest : List Char) (vv : vfscore_volume),
        fstabSep ∉ a → fstabSep ∉ b → fstabSep ∉ c →
        (rest = [] ∨ ∃ t, rest = fstabSep :: t) →
        (vfscore_fstab_fetch_volume_args
            (a ++ fstabSep :: (b ++ fstabSep :: (c ++ fstabSep :: rest)))
            vv).map (fun r => r.1.flags) = some 0) ∧
    (∀ (a b c f g : List Char) (vv : vfscore_volume),
        fstabSep ∉ a → fstabSep ∉ b → fstabSep ∉ c → fstabSep ∉ f →
        (g = [] ∨ ∃ t, g = fstabSep :: t) →
        (vfscore_fstab_fetch_volume_args
            (a ++ fstabSep :: (b ++ fstabSep :: (c ++ fstabSep ::
              (f ++ fstabSep :: g)))) vv).map
          (fun r => r.1.opts) = some none) ∧
    (∀ vv : vfscore_volume,
        vfscore_fstab_fetch_volume_args ("sda0:/mnt:ext4::ro".toList) vv =
          some (⟨"sda0".toList, "/mnt".toList, "ext4".toList, 0,
                 some "ro".toList⟩,
                "sda0\x00/mnt\x00ext4\x00\x00ro".toList)) := by
  refine ⟨?_, ?_, ?_⟩
  · intro a b c rest vv ha hb hc hrest
    rw [fetch_eq_alt]
    unfold fetchVolumeArgsAlt
    rw [splitAtSep_append a _ ha]
    dsimp only
    rw [splitAtSep_append b _ hb]
    dsimp only
    rw [splitAtSep_append c _ hc]
    dsimp only
    rcases hrest with rfl | ⟨t, rfl⟩
    · simp [splitAtSep]
    · rw [show splitAtSep (fstabSep :: t) = ([], some t) by simp [splitAtSep]]
      dsimp only
      rcases splitAtSep t with ⟨t5, q5⟩
      simp
  · intro a b c f g vv ha hb hc hf hg
    rw [fetch_eq_alt]
    unfold fetchVolumeArgsAlt
    rw [splitAtSep_append a _ ha]
    dsimp only
    rw [splitAtSep_append b _ hb]
    dsimp only
    rw [splitAtSep_append c _ hc]
    dsimp only
    rw [splitAtSep_append f _ hf]
    dsimp only
    rcases hg with rfl | ⟨t, rfl⟩
    · simp [splitAtSep]
    · rw [show splitAtSep (fstabSep :: t) = ([], some t) by simp [splitAtSep]]
      simp
  · intro vv
    rfl

theorem fetch_empty_flags_empty_opts_w :
    (vfscore_fstab_fetch_volume_args ("sda0:/mnt:ext4::ro".toList)
        vvInit).map (fun r => r.1.flags) = some 0 ∧
    (vfscore_fstab_fetch_volume_args ("sda0:/mnt:ext4:0:".toList)
        vvInit).map (fun r => r.1.opts) = some none ∧
    vfscore_fstab_fetch_volume_args ("sda0:/mnt:ext4::ro".toList) vvInit =
      some (⟨"sda0".toList, "/mnt".toList, "ext4".toList, 0,
             some "ro".toList⟩,
            "sda0\x00/mnt\x00ext4\x00\x00ro".toList) :=
  ⟨fetch_empty_flags_empty_opts.1 ("sda0".toList) ("/mnt".toList)
     ("ext4".toList) (fstabSep :: "ro".toList) vvInit (by decide)
     (by decide) (by decide) (Or.inr ⟨"ro".toList, rfl⟩),
   fetch_empty_flags_empty_opts.2.1 ("sda0".toList) ("/mnt".toList)
     ("ext4".toList) ("0".toList) ([]) vvInit (by decide) (by decide)
     (by decide) (by decide) (Or.inl rfl),
   fetch_empty_flags_empty_opts.2.2 vvInit⟩

/-- Claim C6: an entry with at most one separator (fewer than three
tokens) trips the mandatory-field assertion; the parse yields no
descriptor. -/
theorem fetch_malformed_two_tokens (v : List Char) (vv : vfscore_volume)
    (h : v.count fstabSep < 2) :
    vfscore_fstab_fetch_volume_args v vv = none := by
  rw [fetch_eq_alt]
  unfold fetchVolumeArgsAlt
  rcases h1 : splitAtSep v with ⟨t1, q1⟩
  cases q1 with
  | none => rfl
  | some r1 =>
    obtain ⟨hv, hm1⟩ := splitAtSep_eq_some v t1 r1 h1
    subst hv
    rw [List.count_append, List.count_cons_self,
        List.count_eq_zero.mpr hm1] at h
    have hnos : fstabSep ∉ r1 := List.count_eq_zero.mp (by omega)
    dsimp only
    rw [splitAtSep_no_sep r1 hnos]

theorem fetch_malformed_two_tokens_w :
    ("sda0:/mnt".toList).count fstabSep < 2 ∧
    vfscore_fstab_fetch_volume_args ("sda0:/mnt".toList) vvInit = none :=
  ⟨by decide, fetch_malformed_two_tokens ("sda0:/mnt".toList) vvInit
    (by decide)⟩

/-- Claim C7: Phase B is fail-fast in table order: when the dispatch of
the k-th parsed volume is the first to fail, the loop returns that
status and the event trace is exactly entries 0..k, each parsed then
dispatched once, in order. -/
theorem fstab_fail_fast (env : AutomountEnv) (vv0 : vfscore_volume)
    (entries : List (List Char)) (vols : List vfscore_volume) (k : Nat)
    (hp : fstabParseSeq vv0 entries = some vols)
    (hk : k < vols.length)
    (hok : ∀ j (hj : j < k),
      (fstabDispatchOne env (vols.get ⟨j, Nat.lt_trans hj hk⟩)).1 = 0)
    (hfail : (fstabDispatchOne env (vols.get ⟨k, hk⟩)).1 ≠ 0) :
    (vfscore_automount_fstab_volumes env vv0 (entries.map some)).1 =
      .ok ((fstabDispatchOne env (vols.get ⟨k, hk⟩)).1) ∧
    (vfscore_automount_fstab_volumes env vv0 (entries.map some)).2.1 =
      fstabTrace env (entries.take (k + 1)) (vols.take (k + 1)) := by
  induction entries generalizing vv0 vols k with
  | nil =>
    simp only [fstabParseSeq] at hp
    obtain rfl := Option.some.inj hp
    exact absurd hk (by simp)
  | cons e es ih =>
    simp only [fstabParseSeq] at hp
    rcases hfetch : vfscore_fstab_fetch_volume_args e vv0 with _ | ⟨vv2, buf⟩
    · rw [hfetch] at hp
      simp at hp
    · rw [hfetch] at hp
      dsimp only at hp
      rcases hseq : fstabParseSeq vv2 es with _ | vs
      · rw [hseq] at hp
        simp at hp
      · rw [hseq] at hp
        dsimp only at hp
        obtain rfl := Option.some.inj hp
        have hloop : vfscore_automount_fstab_volumes env vv0
            ((e :: es).map some) =
            (let d := fstabDispatchOne env vv2
             if d.1 ≠ 0 then
               (.ok d.1, .parseEntry e :: d.2, some buf :: es.map some)
             else
               let r := vfscore_automount_fstab_volumes env vv2 (es.map some)
               (r.1, .parseEntry e :: (d.2 ++ r.2.1),
                some buf :: r.2.2)) := by
          show vfscore_automount_fstab_volumes env vv0
              (some e :: es.map some) = _
          rw [vfscore_automount_fstab_volumes, hfetch]
        cases k with
        | zero =>
          have hfail0 : (fstabDispatchOne env vv2).1 ≠ 0 := hfail
          rw [hloop]
          dsimp only
          rw [if_pos hfail0]
          exact ⟨rfl, by simp [fstabTrace]⟩
        | succ k2 =>
          have h0 : (fstabDispatchOne env vv2).1 = 0 :=
            hok 0 (Nat.succ_pos k2)
          rw [hloop]
          dsimp only
          rw [if_neg (fun hh => hh h0)]
          have hk2 : k2 < vs.length := Nat.succ_lt_succ_iff.mp hk
          obtain ⟨ih1, ih2⟩ := ih vv2 vs k2 hseq hk2
            (fun j hj => hok (j + 1) (Nat.succ_lt_succ hj))
            hfail
          refine ⟨ih1, ?_⟩
          dsimp only
          rw [ih2]
          simp [fstabTrace, List.take_succ_cons]

theorem fstab_fail_fast_w :
    (vfscore_automount_fstab_volumes envC7 vvInit (entriesC7.map some)).1 =
      .ok ((fstabDispatchOne envC7 (volsC7.get ⟨1, by decide⟩)).1) ∧
    (vfscore_automount_fstab_volumes envC7 vvInit
        (entriesC7.map some)).2.1 =
      fstabTrace envC7 (entriesC7.take 2) (volsC7.take 2) :=
  fstab_fail_fast envC7 vvInit entriesC7 volsC7 1 (by decide) (by decide)
    (fun j hj => by
      have hj0 : j = 0 := Nat.lt_one_iff.mp hj
      subst hj0
      show (fstabDispatchOne envC7 (volsC7.get ⟨0, by decide⟩)).1 = 0
      decide)
    (by decide)

/-- Claim C8: an empty root driver makes the Rootfs Resolver return 0
immediately with no call to the mount primitive or the initrd loader. -/
theorem rootfs_empty_driver_skips (env : AutomountEnv) (cfg : RootfsConfig)
    (h : cfg.drv = []) :
    vfscore_automount_rootfs env cfg = (0, []) := by
  simp [vfscore_automount_rootfs, h]

theorem rootfs_empty_driver_skips_w :
    cfgEmpty.drv = [] ∧
    vfscore_automount_rootfs envZero cfgEmpty = (0, []) :=
  ⟨rfl, rootfs_empty_driver_skips envZero cfgEmpty rfl⟩

/-- Claim C9: with an initrd-prefixed root driver and no discoverable
initrd memory region, the Rootfs Resolver fails with -1 and makes no
call to the mount primitive. -/
theorem rootfs_initrd_no_region_fails (env : AutomountEnv)
    (cfg : RootfsConfig)
    (h1 : listStartsWith initrdName cfg.drv = true)
    (h2 : env.initrd0 = none) :
    vfscore_automount_rootfs env cfg = (-1, []) := by
  have hne : ¬ (cfg.drv = []) := by
    intro he
    rw [he] at h1
    exact absurd h1 (by decide)
  simp [vfscore_automount_rootfs, hne, h1, vfscore_mount_initrd_volume, h2]

theorem rootfs_initrd_no_region_fails_w :
    listStartsWith initrdName cfgInitrd.drv = true ∧
    envZero.initrd0 = none ∧
    vfscore_automount_rootfs envZero cfgInitrd = (-1, []) :=
  ⟨by decide, rfl,
   rootfs_initrd_no_region_fails envZero cfgInitrd (by decide) rfl⟩

/-- Claim C10: a present, non-empty flags token never causes a parse
error (two separators already guarantee a successful parse), trailing
garbage after digits is ignored ("12abc" gives 12) and a token with no
digits gives 0 ("ro" gives 0). -/
theorem fetch_flags_never_error :
    (∀ (v : List Char) (vv : vfscore_volume),
        2 ≤ v.count fstabSep →
        (vfscore_fstab_fetch_volume_args v vv).isSome = true) ∧
    (∀ vv : vfscore_volume,
        (vfscore_fstab_fetch_volume_args ("sda0:/mnt:ext4:12abc".toList)
            vv).map (fun r => r.1.flags) = some 12) ∧
    (∀ vv : vfscore_volume,
        (vfscore_fstab_fetch_volume_args ("sda0:/mnt:ext4:ro".toList)
            vv).map (fun r => r.1.flags) = some 0) :=
  ⟨fetch_two_seps_isSome, fun _ => rfl, fun _ => rfl⟩

theorem fetch_flags_never_error_w :
    2 ≤ ("a:b:c".toList).count fstabSep ∧
    (vfscore_fstab_fetch_volume_args ("a:b:c".toList) vvInit).isSome =
      true ∧
    (vfscore_fstab_fetch_volume_args ("sda0:/mnt:ext4:12abc".toList)
        vvInit).map (fun r => r.1.flags) = some 12 ∧
    (vfscore_fstab_fetch_volume_args ("sda0:/mnt:ext4:ro".toList)
        vvInit).map (fun r => r.1.flags) = some 0 :=
  ⟨by decide, fetch_flags_never_error.1 ("a:b:c".toList) vvInit (by decide),
   fetch_flags_never_error.2.1 vvInit, fetch_flags_never_error.2.2 vvInit⟩
